import Mathlib

/-!
Verification of the AWS Lambda Infura proxy handler (src/lambda/index.js).

The development shallowly embeds the handler: the JS runtime values that the
code touches (JSON values, the fetch response, the Lambda response object,
thrown errors) become Lean data types, and the handler body becomes a pure
function from its configuration, the inbound event and the observable
behaviour of the single upstream fetch to an invocation result.  JSON.parse
and JSON.stringify are modelled by an executable serializer and a fuel-based
recursive-descent parser over the JSON data type, with numbers modelled as
integers.
-/

set_option maxRecDepth 4000

namespace InfuraLambda

/-- Model of a JSON value, as produced by JSON.parse and consumed by
JSON.stringify in the handler.  Numbers are modelled as integers; strings are
lists of characters. -/
inductive Json where
  | null : Json
  | bool (b : Bool) : Json
  | num (n : Int) : Json
  | str (s : List Char) : Json
  | arr (elems : List Json) : Json
  | obj (members : List (List Char × Json)) : Json

/-- Decimal digit characters of a positive number, most significant first.
The first argument is fuel so that the recursion is structural. -/
def natCharsAux : Nat → Nat → List Char
  | 0, _ => []
  | fuel + 1, n =>
      if n = 0 then [] else natCharsAux fuel (n / 10) ++ [Nat.digitChar (n % 10)]

/-- Decimal representation of a natural number. -/
def natChars (n : Nat) : List Char :=
  if n = 0 then ['0'] else natCharsAux n n

/-- Decimal representation of an integer, as JSON.stringify prints it. -/
def intChars (n : Int) : List Char :=
  if n < 0 then '-' :: natChars n.natAbs else natChars n.toNat

/-- JSON string escaping of one character: quote and backslash get a
backslash, every other character stands for itself. -/
def escChar (c : Char) : List Char :=
  if c = '"' ∨ c = '\\' then ['\\', c] else [c]

/-- JSON string escaping. -/
def escape (s : List Char) : List Char := s.flatMap escChar

mutual

/-- Model of JSON.stringify: serialize a JSON value to text with no extra
whitespace, as the default JSON.stringify does. -/
def Json.stringify : Json → List Char
  | .null => 'n' :: ['u', 'l', 'l']
  | .bool true => 't' :: ['r', 'u', 'e']
  | .bool false => 'f' :: ['a', 'l', 's', 'e']
  | .num n => intChars n
  | .str s => '"' :: escape s ++ ['"']
  | .arr xs => '[' :: stringifyElems xs ++ [']']
  | .obj ms => '\x7b' :: stringifyMembers ms ++ ['\x7d']

/-- Comma separated serialization of array elements. -/
def stringifyElems : List Json → List Char
  | [] => []
  | [v] => Json.stringify v
  | v :: w :: t => Json.stringify v ++ ',' :: stringifyElems (w :: t)

/-- Comma separated serialization of object members. -/
def stringifyMembers : List (List Char × Json) → List Char
  | [] => []
  | [(k, v)] => '"' :: escape k ++ '"' :: ':' :: Json.stringify v
  | (k, v) :: m :: t =>
      ('"' :: escape k ++ '"' :: ':' :: Json.stringify v) ++
        ',' :: stringifyMembers (m :: t)

end

mutual

/-- Size measure for JSON values, used as parser fuel. -/
def sizeJ : Json → Nat
  | .null => 1
  | .bool _ => 1
  | .num _ => 1
  | .str _ => 1
  | .arr xs => sizeL xs + 1
  | .obj ms => sizeM ms + 1

/-- Size measure for lists of JSON values. -/
def sizeL : List Json → Nat
  | [] => 1
  | v :: t => sizeJ v + sizeL t + 1

/-- Size measure for lists of JSON object members. -/
def sizeM : List (List Char × Json) → Nat
  | [] => 1
  | (_, v) :: t => sizeJ v + sizeM t + 1

end

/-- Read a maximal run of decimal digits, accumulating their value. -/
def parseNatDigits : List Char → Nat → Nat × List Char
  | [], acc => (acc, [])
  | c :: rest, acc =>
      if c.isDigit then parseNatDigits rest (acc * 10 + (c.toNat - 48))
      else (acc, c :: rest)

/-- Read the body of a JSON string literal up to the closing quote,
undoing the escaping of quote and backslash. -/
def parseStrBody : List Char → Option (List Char × List Char)
  | [] => none
  | c :: rest =>
      if c = '"' then some ([], rest)
      else if c = '\\' then
        match rest with
        | [] => none
        | c2 :: rest2 =>
            if c2 = '"' ∨ c2 = '\\' then
              (parseStrBody rest2).map (fun p => (c2 :: p.1, p.2))
            else none
      else (parseStrBody rest).map (fun p => (c :: p.1, p.2))

/-- True when the input does not continue with a decimal digit, so a digit
run ending just before it is maximal. -/
def delimOk : List Char → Bool
  | [] => true
  | c :: _ => !c.isDigit

mutual

/-- Model of JSON.parse, value level: fuel-based recursive descent.
Returns the parsed value and the unconsumed input. -/
def parseVal : Nat → List Char → Option (Json × List Char)
  | 0, _ => none
  | _ + 1, [] => none
  | fuel + 1, c :: rest =>
      if c = 'n' then
        match rest with
        | 'u' :: 'l' :: 'l' :: r => some (.null, r)
        | _ => none
      else if c = 't' then
        match rest with
        | 'r' :: 'u' :: 'e' :: r => some (.bool true, r)
        | _ => none
      else if c = 'f' then
        match rest with
        | 'a' :: 'l' :: 's' :: 'e' :: r => some (.bool false, r)
        | _ => none
      else if c = '"' then
        (parseStrBody rest).map (fun p => (.str p.1, p.2))
      else if c = '-' then
        match rest with
        | [] => none
        | d :: r =>
            if d.isDigit then
              let p := parseNatDigits (d :: r) 0
              some (.num (-(p.1 : Int)), p.2)
            else none
      else if c = '[' then
        (parseElems fuel rest).map (fun p => (.arr p.1, p.2))
      else if c = '\x7b' then
        (parseMembers fuel rest).map (fun p => (.obj p.1, p.2))
      else if c.isDigit then
        let p := parseNatDigits (c :: rest) 0
        some (.num (p.1 : Int), p.2)
      else none

/-- Parse array elements up to and including the closing bracket. -/
def parseElems : Nat → List Char → Option (List Json × List Char)
  | 0, _ => none
  | _ + 1, [] => none
  | fuel + 1, c :: cs =>
      if c = ']' then some ([], cs)
      else
        match parseVal fuel (c :: cs) with
        | some (v, d :: r) =>
            if d = ',' then (parseElems fuel r).map (fun p => (v :: p.1, p.2))
            else if d = ']' then some ([v], r)
            else none
        | _ => none

/-- Parse object members up to and including the closing brace. -/
def parseMembers : Nat → List Char → Option (List (List Char × Json) × List Char)
  | 0, _ => none
  | _ + 1, [] => none
  | fuel + 1, c :: cs =>
      if c = '\x7d' then some ([], cs)
      else if c = '"' then
        match parseStrBody cs with
        | some (k, d :: r) =>
            if d = ':' then
              match parseVal fuel r with
              | some (v, e :: r2) =>
                  if e = ',' then
                    (parseMembers fuel r2).map (fun p => ((k, v) :: p.1, p.2))
                  else if e = '\x7d' then some ([(k, v)], r2)
                  else none
              | _ => none
            else none
        | _ => none
      else none

end

/-- Model of JSON.parse on a whole character list: the document must be a
single JSON value with nothing after it. -/
def Json.parseChars (cs : List Char) : Option Json :=
  match parseVal (2 * cs.length + 2) cs with
  | some (v, []) => some v
  | _ => none

/-- Model of JSON.parse on a string. -/
def Json.parseString (s : String) : Option Json := Json.parseChars s.data

/-- Model of JSON.stringify returning a string. -/
def Json.stringifyStr (v : Json) : String := ⟨v.stringify⟩

/-!
The handler itself (src/lambda/index.js, lines 22 to 101).
-/

/-- The two environment variables read at the top of the handler
(index.js lines 23 and 24); `none` models an unset variable. -/
structure Config where
  infuraEndpoint : Option String
  allowOrigin : Option String
deriving DecidableEq

/-- The part of the inbound API Gateway event the handler reads:
`event.httpMethod` (lines 48 and 62) and `event.body` (line 77). -/
structure Event where
  httpMethod : String
  body : String
deriving DecidableEq

/-- The Lambda proxy response object literal shape built by the handler. -/
structure LambdaResponse where
  body : String
  headers : List (String × String)
  isBase64Encoded : Bool
  statusCode : Nat
deriving DecidableEq

/-- A thrown JS error value, by constructor name, carrying its message. -/
inductive JsError where
  | referenceError (message : String)
  | typeError (message : String)
  | syntaxError (message : String)
deriving DecidableEq

/-- The `.message` property of a JS error. -/
def JsError.message : JsError → String
  | .referenceError m => m
  | .typeError m => m
  | .syntaxError m => m

/-- The fetch Response fields the handler reads: `status`, `statusText`,
`ok` (derived) and the raw body text consumed by `response.json()`. -/
structure FetchResponse where
  status : Nat
  statusText : String
  bodyText : String
deriving DecidableEq

/-- `Response.ok` per the fetch standard: status in the range 200 to 299. -/
def responseOk (status : Nat) : Bool := decide (200 ≤ status ∧ status ≤ 299)

/-- Observable behaviour of the single upstream `fetch` call: the promise
either resolves with a response or rejects with a TypeError message. -/
inductive FetchOutcome where
  | resolved (resp : FetchResponse)
  | rejected (message : String)
deriving DecidableEq

/-- The outbound request the handler passes to `fetch` (lines 72 to 78). -/
structure FetchRequest where
  url : Option String
  method : String
  headers : List (String × String)
  body : String
deriving DecidableEq

/-- Everything one invocation of the handler does: the value it returns or
the error it throws, the upstream calls it issues, and what it logs with
`console.debug`. -/
structure InvocationResult where
  outcome : Except JsError LambdaResponse
  upstreamCalls : List FetchRequest
  consoleDebug : List JsError

/-- `commonHeaders` (index.js lines 26 to 29): the object spread order puts
the credentials header first, then the origin header, whose value is
`ALLOW_ORIGIN ?? "*"`. -/
def commonHeadersOf (allowOrigin : Option String) : List (String × String) :=
  [("Access-Control-Allow-Credentials", "true"),
   ("Access-Control-Allow-Origin", allowOrigin.getD "*")]

/-- The binding the identifier `response` resolves to inside the arrow
function `errorResponse` (index.js line 42).  The lexical scope of that
arrow function is the handler body, which binds INFURA_ENDPOINT,
ALLOW_ORIGIN, commonHeaders and errorResponse itself; the `const response`
of line 72 is block scoped inside the later `try` block and is not visible
here, and no enclosing scope declares `response`.  Reading it therefore
throws a ReferenceError whenever `errorResponse` evaluates its object
literal. -/
def handlerScopeResponse : Option FetchResponse := none

/-- Message of the ReferenceError thrown when the unresolved identifier
`response` is read. -/
def responseNotDefined : String := "response is not defined"

/-- `errorResponse` (index.js lines 31 to 43).  The object literal evaluates
its fields in source order: body, headers, isBase64Encoded, and finally
`statusCode: response.status`, which looks up the identifier `response` in
the lexical environment modelled by `handlerScopeResponse`. -/
def errorResponse (commonHeaders : List (String × String)) (message : String) :
    Except JsError LambdaResponse :=
  match handlerScopeResponse with
  | none => .error (.referenceError responseNotDefined)
  | some response =>
      .ok { body := Json.stringifyStr
              (.obj [("error".data, .obj [("message".data, .str message.data)])]),
            headers := ("Content-Type", "application/json") :: commonHeaders,
            isBase64Encoded := false,
            statusCode := response.status }

/-- Message of the SyntaxError thrown by `response.json()` when the upstream
body is not valid JSON.  The exact wording is engine specific; no result
below depends on it. -/
def jsonParseFailureMessage : String := "Unexpected token"

/-- The catch clause (index.js lines 97 to 100): log the caught error with
`console.debug`, then return `errorResponse(error.message)`.  Evaluating
`errorResponse` may itself throw; that error propagates out of the handler,
since the catch clause is not inside the try block. -/
def catchClause (commonHeaders : List (String × String))
    (calls : List FetchRequest) (error : JsError) : InvocationResult :=
  match errorResponse commonHeaders error.message with
  | .ok r => { outcome := .ok r, upstreamCalls := calls, consoleDebug := [error] }
  | .error e => { outcome := .error e, upstreamCalls := calls, consoleDebug := [error] }

/-- The handler (index.js lines 22 to 101), as a function of its
configuration, the inbound event, and the behaviour of the single upstream
fetch.  Control flow, translated clause by clause:
OPTIONS returns the preflight response (lines 48 to 58); any other
non-POST method returns 405 (lines 62 to 68); POST issues the fetch
(lines 72 to 78); a rejected fetch throws into the catch clause; a non-ok
response returns `errorResponse(response.statusText)` (line 82), whose
thrown ReferenceError is caught by the catch clause; an ok response has its
body parsed by `response.json()` (line 86), a parse failure throwing into
the catch clause, and otherwise the parsed payload is re-serialized and
returned with the upstream status (lines 88 to 96). -/
def handler (cfg : Config) (event : Event) (upstream : FetchOutcome) :
    InvocationResult :=
  let commonHeaders := commonHeadersOf cfg.allowOrigin
  if event.httpMethod = "OPTIONS" then
    { outcome := .ok
        { body := "",
          headers := [("Access-Control-Allow-Headers", "Authorization,Content-type"),
                      ("Access-Control-Allow-Methods", "OPTIONS,POST")] ++ commonHeaders,
          isBase64Encoded := false,
          statusCode := 200 },
      upstreamCalls := [], consoleDebug := [] }
  else if event.httpMethod ≠ "POST" then
    { outcome := .ok
        { body := "",
          headers := commonHeaders,
          isBase64Encoded := false,
          statusCode := 405 },
      upstreamCalls := [], consoleDebug := [] }
  else
    let req : FetchRequest :=
      { url := cfg.infuraEndpoint, method := "POST",
        headers := [("Content-Type", "application/json")], body := event.body }
    match upstream with
    | .rejected message => catchClause commonHeaders [req] (.typeError message)
    | .resolved resp =>
        if responseOk resp.status = false then
          match errorResponse commonHeaders resp.statusText with
          | .ok r => { outcome := .ok r, upstreamCalls := [req], consoleDebug := [] }
          | .error e => catchClause commonHeaders [req] e
        else
          match Json.parseString resp.bodyText with
          | none => catchClause commonHeaders [req] (.syntaxError jsonParseFailureMessage)
          | some payload =>
              { outcome := .ok
                  { body := Json.stringifyStr payload,
                    headers := ("Content-Type", "application/json") :: commonHeaders,
                    isBase64Encoded := false,
                    statusCode := resp.status },
                upstreamCalls := [req], consoleDebug := [] }

/-- One string occurs inside another (as a contiguous substring of its
characters). -/
def containsStr (needle hay : String) : Prop :=
  ∃ l r, hay.data = l ++ needle.data ++ r

/-- The control flow conditions under which the handler evaluates the arrow
function `errorResponse`: a POST whose fetch rejects, or resolves with a
non ok status (line 82), or resolves with an ok status and a body that
`response.json()` cannot parse (line 86, thrown into the catch clause). -/
def reachesErrorResponse (event : Event) (upstream : FetchOutcome) : Prop :=
  event.httpMethod = "POST" ∧
    match upstream with
    | .rejected _ => True
    | .resolved resp =>
        responseOk resp.status = false ∨ Json.parseString resp.bodyText = none

/-!
Round trip of the JSON codec: parsing a serialized value gives the value
back.  This backs the JSON equivalence statements about the handler.
-/

/-- A digit character is none of the characters that start another kind of
JSON token. -/
theorem isDigit_ne (c : Char) (h : c.isDigit = true) :
    c ≠ 'n' ∧ c ≠ 't' ∧ c ≠ 'f' ∧ c ≠ '"' ∧ c ≠ '-' ∧ c ≠ '[' ∧
      c ≠ '\x7b' ∧ c ≠ ']' := by
  refine ⟨?_, ?_, ?_, ?_, ?_, ?_, ?_, ?_⟩ <;> (rintro rfl; revert h; decide)

/-- Characters printed for digits below ten are digits and decode back. -/
theorem digitChar_facts (d : Nat) (h : d < 10) :
    (Nat.digitChar d).isDigit = true ∧ (Nat.digitChar d).toNat - 48 = d := by
  interval_cases d <;> exact ⟨rfl, rfl⟩

/-- Zero prints to no digits in the auxiliary printer. -/
theorem natCharsAux_zero (fuel : Nat) : natCharsAux fuel 0 = [] := by
  cases fuel <;> simp [natCharsAux]

/-- Every character the auxiliary printer emits is a digit. -/
theorem natCharsAux_isDigit (fuel : Nat) :
    ∀ n, ∀ c ∈ natCharsAux fuel n, c.isDigit = true := by
  induction fuel with
  | zero => intro n c hc; simp [natCharsAux] at hc
  | succ fuel ih =>
    intro n c hc
    by_cases hn : n = 0
    · rw [hn, natCharsAux_zero] at hc; simp at hc
    · rw [natCharsAux, if_neg hn] at hc
      rcases List.mem_append.mp hc with h1 | h2
      · exact ih _ c h1
      · have h2' : c = Nat.digitChar (n % 10) := by simpa using h2
        rw [h2']
        exact (digitChar_facts _ (Nat.mod_lt _ (by norm_num))).1

/-- The auxiliary printer output of a nonzero number starts with a digit
character. -/
theorem natCharsAux_head (fuel : Nat) :
    ∀ n, n ≠ 0 → n ≤ fuel →
      ∃ d tail, natCharsAux fuel n = Nat.digitChar d :: tail ∧ d < 10 := by
  induction fuel with
  | zero => intro n hn hle; omega
  | succ fuel ih =>
    intro n hn hle
    rw [natCharsAux, if_neg hn]
    by_cases h10 : n / 10 = 0
    · rw [h10, natCharsAux_zero]
      exact ⟨n % 10, [], by simp, Nat.mod_lt _ (by norm_num)⟩
    · obtain ⟨d, tail, heq, hd⟩ := ih (n / 10) h10 (by omega)
      exact ⟨d, tail ++ [Nat.digitChar (n % 10)], by rw [heq]; simp, hd⟩

/-- Folding the digit accumulator over the printed digits of `n` recovers
`n`, scaling the initial accumulator by the digit count. -/
theorem natCharsAux_foldl (fuel : Nat) :
    ∀ n acc, n ≤ fuel →
      List.foldl (fun a c => a * 10 + (c.toNat - 48)) acc (natCharsAux fuel n) =
        acc * 10 ^ (natCharsAux fuel n).length + n := by
  induction fuel with
  | zero => intro n acc hle; have hn : n = 0 := by omega
            rw [hn]; simp [natCharsAux]
  | succ fuel ih =>
    intro n acc hle
    by_cases hn : n = 0
    · rw [hn, natCharsAux_zero]; simp
    · rw [natCharsAux, if_neg hn, List.foldl_append, List.length_append,
          ih (n / 10) acc (by omega)]
      simp only [List.foldl_cons, List.foldl_nil, List.length_cons,
        List.length_nil, Nat.zero_add]
      rw [(digitChar_facts (n % 10) (by omega)).2]
      have hsplit :
          (acc * 10 ^ (natCharsAux fuel (n / 10)).length + n / 10) * 10 + n % 10 =
            acc * (10 ^ (natCharsAux fuel (n / 10)).length * 10) +
              (n / 10 * 10 + n % 10) := by ring
      rw [hsplit, ← pow_succ]
      omega

/-- Reading digits consumes exactly an all-digit block. -/
theorem parseNatDigits_append (A : List Char) (hA : ∀ c ∈ A, c.isDigit = true)
    (rest : List Char) (acc : Nat) :
    parseNatDigits (A ++ rest) acc =
      parseNatDigits rest
        (List.foldl (fun a c => a * 10 + (c.toNat - 48)) acc A) := by
  induction A generalizing acc with
  | nil => simp
  | cons c t ih =>
    rw [List.cons_append, parseNatDigits, if_pos (hA c (by simp))]
    rw [ih (fun c hc => hA c (by simp [hc])) _]
    simp

/-- Reading digits stops immediately at a non-digit boundary. -/
theorem parseNatDigits_delim (rest : List Char) (acc : Nat)
    (h : delimOk rest = true) : parseNatDigits rest acc = (acc, rest) := by
  cases rest with
  | nil => simp [parseNatDigits]
  | cons c t =>
    have hc : c.isDigit = false := by
      have := h; simp [delimOk] at this; exact this
    simp [parseNatDigits, hc]

/-- Round trip for the decimal printer of natural numbers. -/
theorem natChars_parse (n : Nat) (rest : List Char) (h : delimOk rest = true) :
    parseNatDigits (natChars n ++ rest) 0 = (n, rest) := by
  by_cases hn : n = 0
  · rw [hn]
    show parseNatDigits ('0' :: rest) 0 = (0, rest)
    rw [parseNatDigits, if_pos (by decide)]
    have h0 : (0 : Nat) * 10 + ('0'.toNat - 48) = 0 := by decide
    rw [h0, parseNatDigits_delim rest 0 h]
  · rw [natChars, if_neg hn,
        parseNatDigits_append _ (natCharsAux_isDigit n n) rest 0,
        parseNatDigits_delim rest _ h, natCharsAux_foldl n n 0 le_rfl]
    simp

/-- Round trip for the string escaper: reading an escaped string body up to
the closing quote recovers the original characters. -/
theorem parseStrBody_escape (s rest : List Char) :
    parseStrBody (escape s ++ '"' :: rest) = some (s, rest) := by
  induction s with
  | nil =>
    rw [show escape [] ++ '"' :: rest = '"' :: rest by simp [escape]]
    rw [parseStrBody.eq_def]; simp
  | cons c t ih =>
    rw [show escape (c :: t) ++ '"' :: rest =
          escChar c ++ (escape t ++ '"' :: rest) by simp [escape]]
    by_cases hq : c = '"'
    · subst hq
      rw [show escChar '"' = ['\\', '"'] from rfl, List.cons_append,
        List.cons_append, List.nil_append, parseStrBody.eq_def]
      simp [ih]
    · by_cases hb : c = '\\'
      · subst hb
        rw [show escChar '\\' = ['\\', '\\'] from rfl, List.cons_append,
          List.cons_append, List.nil_append, parseStrBody.eq_def]
        simp [ih]
      · rw [show escChar c = [c] by simp [escChar, hq, hb], List.cons_append,
          List.nil_append, parseStrBody.eq_def]
        simp [hq, hb, ih]

/-- Serialized JSON values are nonempty and never start with a closing
bracket. -/
theorem stringify_head (v : Json) :
    ∃ c tail, Json.stringify v = c :: tail ∧ c ≠ ']' := by
  cases v with
  | null => exact ⟨'n', _, rfl, by decide⟩
  | bool b => cases b with
    | true => exact ⟨'t', _, rfl, by decide⟩
    | false => exact ⟨'f', _, rfl, by decide⟩
  | num n =>
    show ∃ c tail, intChars n = c :: tail ∧ c ≠ ']'
    rw [intChars]
    by_cases hneg : n < 0
    · rw [if_pos hneg]; exact ⟨'-', _, rfl, by decide⟩
    · rw [if_neg hneg, natChars]
      by_cases h0 : n.toNat = 0
      · rw [if_pos h0]; exact ⟨'0', [], rfl, by decide⟩
      · rw [if_neg h0]
        obtain ⟨d, tail, heq, hd⟩ := natCharsAux_head n.toNat n.toNat h0 le_rfl
        exact ⟨_, _, heq, (isDigit_ne _ (digitChar_facts d hd).1).2.2.2.2.2.2.2⟩
  | str s => exact ⟨'"', _, rfl, by decide⟩
  | arr xs => exact ⟨'[', _, rfl, by decide⟩
  | obj ms => exact ⟨'\x7b', _, rfl, by decide⟩

/-- JSON sizes are positive. -/
theorem sizeJ_pos (v : Json) : 1 ≤ sizeJ v := by
  cases v <;> simp [sizeJ]

/-- Element list sizes are positive. -/
theorem sizeL_pos (xs : List Json) : 1 ≤ sizeL xs := by
  cases xs <;> simp [sizeL]

/-- Member list sizes are positive. -/
theorem sizeM_pos (ms : List (List Char × Json)) : 1 ≤ sizeM ms := by
  cases ms with
  | nil => simp [sizeM]
  | cons m t => obtain ⟨k, v⟩ := m; simp [sizeM]

/-- The decimal printer output starts with a digit character. -/
theorem natChars_head (m : Nat) :
    ∃ c tail, natChars m = c :: tail ∧ c.isDigit = true := by
  by_cases h0 : m = 0
  · exact ⟨'0', [], by rw [h0]; rfl, by decide⟩
  · obtain ⟨d, tail, heq, hd⟩ := natCharsAux_head m m h0 le_rfl
    exact ⟨_, _, by rw [natChars, if_neg h0, heq], (digitChar_facts d hd).1⟩

/-- The value parser reads a printed natural number followed by a
delimiter. -/
theorem parseVal_num_core (fuel m : Nat) (rest : List Char)
    (hrest : delimOk rest = true) :
    parseVal (fuel + 1) (natChars m ++ rest) = some (.num (m : Int), rest) := by
  obtain ⟨c, tail, heq, hc⟩ := natChars_head m
  obtain ⟨hn', ht', hf', hq', hm', hl', hb', _⟩ := isDigit_ne c hc
  rw [heq, List.cons_append]
  have hp : parseNatDigits (c :: (tail ++ rest)) 0 = (m, rest) := by
    rw [← List.cons_append, ← heq]; exact natChars_parse m rest hrest
  simp [parseVal, hn', ht', hf', hq', hm', hl', hb', hc, hp]

/-- The value parser reads a minus sign and a printed positive number
followed by a delimiter. -/
theorem parseVal_negnum_core (fuel m : Nat) (rest : List Char)
    (hrest : delimOk rest = true) :
    parseVal (fuel + 1) ('-' :: (natChars m ++ rest)) =
      some (.num (-(m : Int)), rest) := by
  obtain ⟨c, tail, heq, hc⟩ := natChars_head m
  rw [heq, List.cons_append]
  have hp : parseNatDigits (c :: (tail ++ rest)) 0 = (m, rest) := by
    rw [← List.cons_append, ← heq]; exact natChars_parse m rest hrest
  simp [parseVal, hp, hc]

/-- The size measure of a value is at most twice the length of its
serialization; the measure of a list tail is at most twice the length of
its serialization plus three.  This makes the parse fuel chosen from the
input length sufficient. -/
theorem size_le_stringify : ∀ bound : Nat,
    (∀ v : Json, sizeJ v ≤ bound → sizeJ v ≤ 2 * (Json.stringify v).length) ∧
    (∀ xs : List Json, sizeL xs ≤ bound →
      sizeL xs ≤ 2 * (stringifyElems xs).length + 3) ∧
    (∀ ms : List (List Char × Json), sizeM ms ≤ bound →
      sizeM ms ≤ 2 * (stringifyMembers ms).length + 3) := by
  intro bound
  induction bound with
  | zero =>
    refine ⟨fun v h => ?_, fun xs h => ?_, fun ms h => ?_⟩
    · have := sizeJ_pos v; omega
    · have := sizeL_pos xs; omega
    · have := sizeM_pos ms; omega
  | succ bound ih =>
    obtain ⟨ihV, ihL, ihM⟩ := ih
    refine ⟨?_, ?_, ?_⟩
    · intro v hv
      cases v with
      | null => simp [sizeJ, Json.stringify]
      | bool b => cases b <;> simp [sizeJ, Json.stringify]
      | num n =>
        obtain ⟨c, tail, heq, _⟩ := stringify_head (.num n)
        rw [heq]
        simp [sizeJ]
        omega
      | str s =>
        simp [sizeJ, Json.stringify]
        omega
      | arr xs =>
        have hL : sizeL xs ≤ bound := by simp [sizeJ] at hv; omega
        have := ihL xs hL
        simp [sizeJ, Json.stringify]
        omega
      | obj ms =>
        have hM : sizeM ms ≤ bound := by simp [sizeJ] at hv; omega
        have := ihM ms hM
        simp [sizeJ, Json.stringify]
        omega
    · intro xs hxs
      cases xs with
      | nil => simp [sizeL, stringifyElems]
      | cons v t =>
        cases t with
        | nil =>
          have hv : sizeJ v ≤ bound := by simp [sizeL] at hxs; omega
          have := ihV v hv
          simp [sizeL, stringifyElems]
          omega
        | cons w t2 =>
          have h1 : sizeJ v ≤ bound := by
            have := sizeL_pos (w :: t2); simp [sizeL] at hxs ⊢; omega
          have h2 : sizeL (w :: t2) ≤ bound := by
            have := sizeJ_pos v; simp [sizeL] at hxs ⊢; omega
          have hv := ihV v h1
          have ht := ihL (w :: t2) h2
          simp [sizeL, stringifyElems] at ht ⊢
          omega
    · intro ms hms
      cases ms with
      | nil => simp [sizeM, stringifyMembers]
      | cons kv t =>
        obtain ⟨k, v⟩ := kv
        cases t with
        | nil =>
          have hv : sizeJ v ≤ bound := by simp [sizeM] at hms; omega
          have := ihV v hv
          simp [sizeM, stringifyMembers]
          omega
        | cons kv2 t2 =>
          have h1 : sizeJ v ≤ bound := by
            have := sizeM_pos (kv2 :: t2); simp [sizeM] at hms ⊢; omega
          have h2 : sizeM (kv2 :: t2) ≤ bound := by
            have := sizeJ_pos v; simp [sizeM] at hms ⊢; omega
          have hv := ihV v h1
          have ht := ihM (kv2 :: t2) h2
          simp [sizeM, stringifyMembers] at ht ⊢
          omega

/-- Main round trip: with enough fuel, parsing a serialized value followed
by a delimiter consumes exactly the serialization and returns the value;
likewise for serialized element and member lists followed by their closing
bracket. -/
theorem parse_stringify_core : ∀ fuel : Nat,
    (∀ v : Json, ∀ rest : List Char, sizeJ v ≤ fuel → delimOk rest = true →
      parseVal fuel (Json.stringify v ++ rest) = some (v, rest)) ∧
    (∀ xs : List Json, ∀ rest : List Char, sizeL xs ≤ fuel →
      parseElems fuel (stringifyElems xs ++ ']' :: rest) = some (xs, rest)) ∧
    (∀ ms : List (List Char × Json), ∀ rest : List Char, sizeM ms ≤ fuel →
      parseMembers fuel (stringifyMembers ms ++ '\x7d' :: rest) =
        some (ms, rest)) := by
  intro fuel
  induction fuel with
  | zero =>
    refine ⟨fun v rest h _ => ?_, fun xs rest h => ?_, fun ms rest h => ?_⟩
    · have := sizeJ_pos v; omega
    · have := sizeL_pos xs; omega
    · have := sizeM_pos ms; omega
  | succ fuel ih =>
    obtain ⟨ihV, ihL, ihM⟩ := ih
    refine ⟨?_, ?_, ?_⟩
    · intro v rest hsz hrest
      cases v with
      | null =>
        rw [show Json.stringify .null ++ rest = 'n' :: 'u' :: 'l' :: 'l' :: rest
              from rfl]
        simp [parseVal]
      | bool b =>
        cases b with
        | false =>
          rw [show Json.stringify (.bool false) ++ rest =
                'f' :: 'a' :: 'l' :: 's' :: 'e' :: rest from rfl]
          simp [parseVal]
        | true =>
          rw [show Json.stringify (.bool true) ++ rest =
                't' :: 'r' :: 'u' :: 'e' :: rest from rfl]
          simp [parseVal]
      | num n =>
        by_cases hneg : n < 0
        · have hstr : Json.stringify (.num n) ++ rest =
              '-' :: (natChars n.natAbs ++ rest) := by
            simp [Json.stringify, intChars, hneg]
          rw [hstr, parseVal_negnum_core fuel n.natAbs rest hrest]
          have hn : -((n.natAbs : Nat) : Int) = n := by omega
          rw [hn]
        · have hstr : Json.stringify (.num n) ++ rest =
              natChars n.toNat ++ rest := by
            simp [Json.stringify, intChars, hneg]
          rw [hstr, parseVal_num_core fuel n.toNat rest hrest]
          have hn : ((n.toNat : Nat) : Int) = n := by omega
          rw [hn]
      | str s =>
        rw [show Json.stringify (.str s) ++ rest =
              '"' :: (escape s ++ '"' :: rest) by simp [Json.stringify]]
        simp [parseVal, parseStrBody_escape]
      | arr xs =>
        have hL : sizeL xs ≤ fuel := by simp [sizeJ] at hsz; omega
        rw [show Json.stringify (.arr xs) ++ rest =
              '[' :: (stringifyElems xs ++ ']' :: rest) by simp [Json.stringify]]
        simp [parseVal, ihL xs rest hL]
      | obj ms =>
        have hM : sizeM ms ≤ fuel := by simp [sizeJ] at hsz; omega
        rw [show Json.stringify (.obj ms) ++ rest =
              '\x7b' :: (stringifyMembers ms ++ '\x7d' :: rest) by
            simp [Json.stringify]]
        simp [parseVal, ihM ms rest hM]
    · intro xs rest hsz
      cases xs with
      | nil =>
        rw [show stringifyElems [] ++ ']' :: rest = ']' :: rest from rfl]
        simp [parseElems]
      | cons v t =>
        obtain ⟨c, ctail, heq, hcne⟩ := stringify_head v
        cases t with
        | nil =>
          have hv : sizeJ v ≤ fuel := by simp [sizeL] at hsz; omega
          have hpv := ihV v (']' :: rest) hv (by simp [delimOk])
          rw [show stringifyElems [v] ++ ']' :: rest =
                Json.stringify v ++ ']' :: rest from rfl]
          rw [heq, List.cons_append]
          simp only [parseElems]
          rw [if_neg hcne]
          rw [show c :: (ctail ++ ']' :: rest) = Json.stringify v ++ ']' :: rest
                by rw [heq, List.cons_append]]
          rw [hpv]
          simp
        | cons w t2 =>
          have h1 : sizeJ v ≤ fuel := by
            have := sizeL_pos (w :: t2); simp [sizeL] at hsz ⊢; omega
          have h2 : sizeL (w :: t2) ≤ fuel := by
            have := sizeJ_pos v; simp [sizeL] at hsz ⊢; omega
          have hpv := ihV v (',' :: (stringifyElems (w :: t2) ++ ']' :: rest)) h1
            (by simp [delimOk])
          have hpt := ihL (w :: t2) rest h2
          rw [show stringifyElems (v :: w :: t2) ++ ']' :: rest =
                Json.stringify v ++
                  (',' :: (stringifyElems (w :: t2) ++ ']' :: rest)) by
              simp [stringifyElems]]
          rw [heq, List.cons_append]
          simp only [parseElems]
          rw [if_neg hcne]
          rw [show c :: (ctail ++ ',' :: (stringifyElems (w :: t2) ++ ']' :: rest)) =
                Json.stringify v ++
                  (',' :: (stringifyElems (w :: t2) ++ ']' :: rest)) by
              rw [heq, List.cons_append]]
          rw [hpv]
          simp [hpt]
    · intro ms rest hsz
      cases ms with
      | nil =>
        rw [show stringifyMembers [] ++ '\x7d' :: rest = '\x7d' :: rest from rfl]
        simp [parseMembers]
      | cons kv t =>
        obtain ⟨k, v⟩ := kv
        cases t with
        | nil =>
          have hv : sizeJ v ≤ fuel := by simp [sizeM] at hsz; omega
          have hpv := ihV v ('\x7d' :: rest) hv (by simp [delimOk])
          rw [show stringifyMembers [(k, v)] ++ '\x7d' :: rest =
                '"' :: (escape k ++ '"' ::
                  (':' :: (Json.stringify v ++ '\x7d' :: rest))) by
              simp [stringifyMembers]]
          simp only [parseMembers]
          rw [show escape k ++ '"' :: (':' :: (Json.stringify v ++ '\x7d' :: rest)) =
                escape k ++ '"' :: (':' :: (Json.stringify v ++ '\x7d' :: rest))
                from rfl]
          simp [parseStrBody_escape, hpv]
        | cons kv2 t2 =>
          have h1 : sizeJ v ≤ fuel := by
            have := sizeM_pos (kv2 :: t2); simp [sizeM] at hsz ⊢; omega
          have h2 : sizeM (kv2 :: t2) ≤ fuel := by
            have := sizeJ_pos v; simp [sizeM] at hsz ⊢; omega
          have hpv := ihV v
            (',' :: (stringifyMembers (kv2 :: t2) ++ '\x7d' :: rest)) h1
            (by simp [delimOk])
          have hpt := ihM (kv2 :: t2) rest h2
          rw [show stringifyMembers ((k, v) :: kv2 :: t2) ++ '\x7d' :: rest =
                '"' :: (escape k ++ '"' :: (':' :: (Json.stringify v ++
                  ',' :: (stringifyMembers (kv2 :: t2) ++ '\x7d' :: rest)))) by
              simp [stringifyMembers]]
          simp only [parseMembers]
          simp [parseStrBody_escape, hpv, hpt]

/-- Round trip of the JSON codec at the character level. -/
theorem parseChars_stringify (v : Json) :
    Json.parseChars (Json.stringify v) = some v := by
  have hsz : sizeJ v ≤ 2 * (Json.stringify v).length + 2 :=
    le_trans ((size_le_stringify (sizeJ v)).1 v le_rfl) (by omega)
  have h := (parse_stringify_core (2 * (Json.stringify v).length + 2)).1 v []
    hsz rfl
  rw [List.append_nil] at h
  rw [Json.parseChars, h]

/-- Round trip of the JSON codec at the string level: the body the handler
returns on the success path parses back to the parsed upstream payload. -/
theorem parseString_stringifyStr (v : Json) :
    Json.parseString (Json.stringifyStr v) = some v :=
  parseChars_stringify v

/-!
The claims about the handler.
-/

/-- C1: for every POST request whose upstream fetch resolves with an ok
status S and a body parsing to the JSON value B, the handler returns a
response with statusCode S, a body that is JSON equivalent to B (it parses
back to B), and headers consisting of Content-Type: application/json plus
the two common CORS headers. -/
theorem post_success_relays_upstream_json (cfg : Config) (event : Event)
    (resp : FetchResponse) (B : Json)
    (hm : event.httpMethod = "POST")
    (hok : responseOk resp.status = true)
    (hparse : Json.parseString resp.bodyText = some B) :
    (handler cfg event (.resolved resp)).outcome = .ok
      { body := Json.stringifyStr B,
        headers := ("Content-Type", "application/json") ::
          commonHeadersOf cfg.allowOrigin,
        isBase64Encoded := false,
        statusCode := resp.status } ∧
    Json.parseString (Json.stringifyStr B) = some B := by
  refine ⟨?_, parseString_stringifyStr B⟩
  simp [handler, hm, hok, hparse]

/-- Witness for C1 at a concrete input: a POST whose upstream resolves with
status 200 and body "0". -/
theorem post_success_relays_upstream_json_witness :
    (("POST" : String) = "POST" ∧ responseOk 200 = true ∧
      Json.parseString ⟨['0']⟩ = some (.num 0)) ∧
    ((handler { infuraEndpoint := some "e", allowOrigin := none }
        { httpMethod := "POST", body := "[]" }
        (.resolved { status := 200, statusText := "OK",
                     bodyText := ⟨['0']⟩ })).outcome = .ok
      { body := Json.stringifyStr (.num 0),
        headers := ("Content-Type", "application/json") ::
          commonHeadersOf (none : Option String),
        isBase64Encoded := false,
        statusCode := 200 } ∧
     Json.parseString (Json.stringifyStr (.num 0)) = some (.num 0)) :=
  ⟨⟨rfl, rfl, rfl⟩,
    post_success_relays_upstream_json _ _ _ _ rfl rfl rfl⟩

/-- C2 fails on the code: when the upstream resolves with a non ok status,
line 82 evaluates `errorResponse(response.statusText)`, whose statusCode
field reads the out of scope identifier `response` and throws a
ReferenceError; the catch clause then calls `errorResponse` again and the
second ReferenceError propagates out of the handler.  At the concrete
failing input (POST, upstream 500 Internal Server Error) the invocation
ends with a thrown ReferenceError instead of the documented ErrorPayload
response. -/
theorem upstream_rejection_throws_reference_error :
    (handler { infuraEndpoint := some "https://mainnet.example/v3/key",
               allowOrigin := none }
       { httpMethod := "POST", body := "[]" }
       (.resolved { status := 500, statusText := "Internal Server Error",
                    bodyText := "" })).outcome =
      .error (.referenceError responseNotDefined) := rfl

/-- C3 fails on the code: on a caught exception the catch clause does emit
its diagnostic output (console.debug of the caught TypeError), but the
`errorResponse(error.message)` it then evaluates throws a ReferenceError
that propagates out of the handler, so no ErrorPayload response is
returned.  Shown at the concrete failing input of a rejected fetch. -/
theorem network_failure_throws_reference_error :
    handler { infuraEndpoint := some "https://mainnet.example/v3/key",
              allowOrigin := none }
      { httpMethod := "POST", body := "[]" } (.rejected "fetch failed") =
      { outcome := .error (.referenceError responseNotDefined),
        upstreamCalls :=
          [{ url := some "https://mainnet.example/v3/key", method := "POST",
             headers := [("Content-Type", "application/json")], body := "[]" }],
        consoleDebug := [.typeError "fetch failed"] } := rfl

/-- C4 fails on the code: an invocation can end with a propagated
exception.  At the concrete failing input (POST, upstream resolves ok with
a body that is not valid JSON) `response.json()` throws, the catch clause
calls `errorResponse`, and the ReferenceError thrown there leaves the
handler as an unhandled fault instead of a returned response. -/
theorem handler_can_throw_reference_error :
    (handler { infuraEndpoint := some "https://mainnet.example/v3/key",
               allowOrigin := none }
       { httpMethod := "POST", body := "[]" }
       (.resolved { status := 200, statusText := "OK",
                    bodyText := "" })).outcome =
      .error (.referenceError responseNotDefined) := rfl

/-- C5: on every path that evaluates `errorResponse` (POST with a rejected
fetch, a non ok upstream status, or an unparseable upstream body), the
object literal of `errorResponse` reads the identifier `response`, which is
declared as a const inside the try block and is not in the arrow function's
lexical scope; evaluating it throws a ReferenceError, so no ErrorPayload is
ever returned, and the rethrow from the catch clause propagates out of the
handler. -/
theorem errorResponse_always_throws (cfg : Config) (event : Event)
    (upstream : FetchOutcome) (hs : List (String × String)) (msg : String)
    (h : reachesErrorResponse event upstream) :
    errorResponse hs msg = .error (.referenceError responseNotDefined) ∧
    (handler cfg event upstream).outcome =
      .error (.referenceError responseNotDefined) := by
  refine ⟨rfl, ?_⟩
  obtain ⟨hm, hrest⟩ := h
  cases upstream with
  | rejected m =>
    simp [handler, hm, catchClause, errorResponse, handlerScopeResponse]
  | resolved resp =>
    rcases hrest with hbad | hbad
    · simp [handler, hm, hbad, catchClause, errorResponse, handlerScopeResponse]
    · by_cases hok : responseOk resp.status = false
      · simp [handler, hm, hok, catchClause, errorResponse, handlerScopeResponse]
      · simp only [Bool.not_eq_false] at hok
        simp [handler, hm, hok, hbad, catchClause, errorResponse,
          handlerScopeResponse]

/-- Witness for C5 at a concrete input: a POST whose fetch rejects. -/
theorem errorResponse_always_throws_witness :
    reachesErrorResponse { httpMethod := "POST", body := "" }
      (.rejected "boom") ∧
    (errorResponse [] "x" = .error (.referenceError responseNotDefined) ∧
     (handler { infuraEndpoint := none, allowOrigin := none }
        { httpMethod := "POST", body := "" } (.rejected "boom")).outcome =
       .error (.referenceError responseNotDefined)) :=
  ⟨⟨rfl, True.intro⟩,
    errorResponse_always_throws _ _ _ [] "x" ⟨rfl, True.intro⟩⟩

/-- C6: every OPTIONS request returns immediately with status 200, empty
body, the two preflight headers plus the common CORS headers, and no
upstream call is made. -/
theorem options_preflight (cfg : Config) (event : Event)
    (upstream : FetchOutcome) (hm : event.httpMethod = "OPTIONS") :
    handler cfg event upstream =
      { outcome := .ok
          { body := "",
            headers :=
              [("Access-Control-Allow-Headers", "Authorization,Content-type"),
               ("Access-Control-Allow-Methods", "OPTIONS,POST")] ++
                commonHeadersOf cfg.allowOrigin,
            isBase64Encoded := false,
            statusCode := 200 },
        upstreamCalls := [], consoleDebug := [] } := by
  simp [handler, hm]

/-- Witness for C6 at a concrete OPTIONS request. -/
theorem options_preflight_witness :
    (("OPTIONS" : String) = "OPTIONS") ∧
    handler { infuraEndpoint := some "e", allowOrigin := none }
        { httpMethod := "OPTIONS", body := "" } (.rejected "unused") =
      { outcome := .ok
          { body := "",
            headers :=
              [("Access-Control-Allow-Headers", "Authorization,Content-type"),
               ("Access-Control-Allow-Methods", "OPTIONS,POST")] ++
                commonHeadersOf (none : Option String),
            isBase64Encoded := false,
            statusCode := 200 },
        upstreamCalls := [], consoleDebug := [] } :=
  ⟨rfl, options_preflight _ _ _ rfl⟩

/-- C7: every request whose method is neither OPTIONS nor POST returns
status 405 with empty body and exactly the common CORS headers, with no
upstream call. -/
theorem unsupported_method_405 (cfg : Config) (event : Event)
    (upstream : FetchOutcome) (h1 : event.httpMethod ≠ "OPTIONS")
    (h2 : event.httpMethod ≠ "POST") :
    handler cfg event upstream =
      { outcome := .ok
          { body := "",
            headers := commonHeadersOf cfg.allowOrigin,
            isBase64Encoded := false,
            statusCode := 405 },
        upstreamCalls := [], consoleDebug := [] } := by
  simp [handler, h1, h2]

/-- Witness for C7 at a concrete GET request. -/
theorem unsupported_method_405_witness :
    (("GET" : String) ≠ "OPTIONS" ∧ ("GET" : String) ≠ "POST") ∧
    handler { infuraEndpoint := some "e", allowOrigin := some "https://app" }
        { httpMethod := "GET", body := "" } (.rejected "unused") =
      { outcome := .ok
          { body := "",
            headers := commonHeadersOf (some "https://app"),
            isBase64Encoded := false,
            statusCode := 405 },
        upstreamCalls := [], consoleDebug := [] } :=
  ⟨⟨by simp, by simp⟩,
    unsupported_method_405 _ _ _ (by simp) (by simp)⟩

/-- C8: every response the handler returns, on any branch, carries the
Access-Control-Allow-Credentials header with value "true" and the
Access-Control-Allow-Origin header with the configured origin, or "*" when
none is configured. -/
theorem responses_carry_cors (cfg : Config) (event : Event)
    (upstream : FetchOutcome) (r : LambdaResponse)
    (h : (handler cfg event upstream).outcome = .ok r) :
    ("Access-Control-Allow-Credentials", "true") ∈ r.headers ∧
    ("Access-Control-Allow-Origin", cfg.allowOrigin.getD "*") ∈ r.headers := by
  by_cases hopt : event.httpMethod = "OPTIONS"
  · simp [handler, hopt] at h
    rw [← h]
    simp [commonHeadersOf]
  · by_cases hpost : event.httpMethod = "POST"
    · cases upstream with
      | rejected m =>
        simp [handler, hopt, hpost, catchClause, errorResponse,
          handlerScopeResponse] at h
      | resolved resp =>
        by_cases hok : responseOk resp.status = false
        · simp [handler, hopt, hpost, hok, catchClause, errorResponse,
            handlerScopeResponse] at h
        · simp only [Bool.not_eq_false] at hok
          cases hparse : Json.parseString resp.bodyText with
          | none =>
            simp [handler, hopt, hpost, hok, hparse, catchClause,
              errorResponse, handlerScopeResponse] at h
          | some payload =>
            simp [handler, hopt, hpost, hok, hparse] at h
            rw [← h]
            simp [commonHeadersOf]
    · simp [handler, hopt, hpost] at h
      rw [← h]
      simp [commonHeadersOf]

/-- Witness for C8 at a concrete OPTIONS request. -/
theorem responses_carry_cors_witness :
    ((handler { infuraEndpoint := some "e", allowOrigin := none }
        { httpMethod := "OPTIONS", body := "" } (.rejected "unused")).outcome =
      .ok
        { body := "",
          headers :=
            [("Access-Control-Allow-Headers", "Authorization,Content-type"),
             ("Access-Control-Allow-Methods", "OPTIONS,POST")] ++
              commonHeadersOf (none : Option String),
          isBase64Encoded := false,
          statusCode := 200 }) ∧
    (("Access-Control-Allow-Credentials", "true") ∈
        (LambdaResponse.mk ""
          ([("Access-Control-Allow-Headers", "Authorization,Content-type"),
            ("Access-Control-Allow-Methods", "OPTIONS,POST")] ++
              commonHeadersOf (none : Option String)) false 200).headers ∧
     ("Access-Control-Allow-Origin",
        (none : Option String).getD "*") ∈
        (LambdaResponse.mk ""
          ([("Access-Control-Allow-Headers", "Authorization,Content-type"),
            ("Access-Control-Allow-Methods", "OPTIONS,POST")] ++
              commonHeadersOf (none : Option String)) false 200).headers) :=
  ⟨rfl, responses_carry_cors
      { infuraEndpoint := some "e", allowOrigin := none }
      { httpMethod := "OPTIONS", body := "" } (.rejected "unused")
      { body := "",
        headers :=
          [("Access-Control-Allow-Headers", "Authorization,Content-type"),
           ("Access-Control-Allow-Methods", "OPTIONS,POST")] ++
            commonHeadersOf (none : Option String),
        isBase64Encoded := false,
        statusCode := 200 }
      (by rfl)⟩

/-- C9: every POST request issues exactly one outbound call, a POST to the
configured endpoint with the Content-Type: application/json header and the
inbound body verbatim; no other branch and no retry adds further calls. -/
theorem post_forwards_body_once (cfg : Config) (event : Event)
    (upstream : FetchOutcome) (hm : event.httpMethod = "POST") :
    (handler cfg event upstream).upstreamCalls =
      [{ url := cfg.infuraEndpoint, method := "POST",
         headers := [("Content-Type", "application/json")],
         body := event.body }] := by
  cases upstream with
  | rejected m => simp [handler, hm, catchClause, errorResponse,
      handlerScopeResponse]
  | resolved resp =>
    by_cases hok : responseOk resp.status = false
    · simp [handler, hm, hok, catchClause, errorResponse, handlerScopeResponse]
    · simp only [Bool.not_eq_false] at hok
      cases hparse : Json.parseString resp.bodyText with
      | none => simp [handler, hm, hok, hparse, catchClause, errorResponse,
          handlerScopeResponse]
      | some payload => simp [handler, hm, hok, hparse]

/-- Witness for C9 at a concrete POST request. -/
theorem post_forwards_body_once_witness :
    (("POST" : String) = "POST") ∧
    (handler { infuraEndpoint := some "https://mainnet.example/v3/key",
               allowOrigin := none }
       { httpMethod := "POST", body := "payload" }
       (.rejected "down")).upstreamCalls =
      [{ url := some "https://mainnet.example/v3/key", method := "POST",
         headers := [("Content-Type", "application/json")],
         body := "payload" }] :=
  ⟨rfl, post_forwards_body_once _ _ _ rfl⟩

/-- C10 as stated is false in its containment half: for the degenerate
endpoint value "true", the response to an OPTIONS request carries the
header Access-Control-Allow-Credentials whose value "true" contains the
endpoint string, even though the endpoint never influenced the response.
Exhibited at that concrete input. -/
theorem endpoint_literal_in_fixed_header :
    (handler { infuraEndpoint := some "true", allowOrigin := none }
       { httpMethod := "OPTIONS", body := "" } (.rejected "refused")).outcome =
      .ok
        { body := "",
          headers :=
            [("Access-Control-Allow-Headers", "Authorization,Content-type"),
             ("Access-Control-Allow-Methods", "OPTIONS,POST"),
             ("Access-Control-Allow-Credentials", "true"),
             ("Access-Control-Allow-Origin", "*")],
          isBase64Encoded := false,
          statusCode := 200 } ∧
    containsStr "true" "true" :=
  ⟨rfl, [], [], by simp⟩

/-- C10 amended: the endpoint value never influences the client visible
outcome.  Two invocations on the same event and upstream behaviour whose
configurations agree on the allowed origin but differ arbitrarily in the
endpoint produce the same returned or thrown outcome and the same
diagnostic output, so no information about the endpoint reaches the
client; the literal claim that no response field contains the endpoint
string fails only for degenerate endpoint values that coincide with fixed
response text, as exhibited above. -/
theorem endpoint_noninterference (cfg1 cfg2 : Config) (event : Event)
    (upstream : FetchOutcome) (h : cfg1.allowOrigin = cfg2.allowOrigin) :
    (handler cfg1 event upstream).outcome =
      (handler cfg2 event upstream).outcome ∧
    (handler cfg1 event upstream).consoleDebug =
      (handler cfg2 event upstream).consoleDebug := by
  obtain ⟨e1, a1⟩ := cfg1
  obtain ⟨e2, a2⟩ := cfg2
  simp only at h
  subst h
  by_cases hopt : event.httpMethod = "OPTIONS"
  · simp [handler, hopt]
  · by_cases hpost : event.httpMethod = "POST"
    · cases upstream with
      | rejected m => simp [handler, hopt, hpost, catchClause, errorResponse,
          handlerScopeResponse]
      | resolved resp =>
        by_cases hok : responseOk resp.status = false
        · simp [handler, hopt, hpost, hok, catchClause, errorResponse,
            handlerScopeResponse]
        · simp only [Bool.not_eq_false] at hok
          cases hparse : Json.parseString resp.bodyText with
          | none => simp [handler, hopt, hpost, hok, hparse, catchClause,
              errorResponse, handlerScopeResponse]
          | some payload => simp [handler, hopt, hpost, hok, hparse]
    · simp [handler, hopt, hpost]

/-- Witness for the amended C10 at concrete configurations differing only
in the endpoint. -/
theorem endpoint_noninterference_witness :
    ((Config.mk (some "https://mainnet.example/v3/keyA") none).allowOrigin =
      (Config.mk (some "https://other.example/v3/keyB") none).allowOrigin) ∧
    ((handler (Config.mk (some "https://mainnet.example/v3/keyA") none)
        { httpMethod := "POST", body := "[]" } (.rejected "down")).outcome =
      (handler (Config.mk (some "https://other.example/v3/keyB") none)
        { httpMethod := "POST", body := "[]" } (.rejected "down")).outcome ∧
     (handler (Config.mk (some "https://mainnet.example/v3/keyA") none)
        { httpMethod := "POST", body := "[]" } (.rejected "down")).consoleDebug =
      (handler (Config.mk (some "https://other.example/v3/keyB") none)
        { httpMethod := "POST", body := "[]" } (.rejected "down")).consoleDebug) :=
  ⟨rfl, endpoint_noninterference _ _ _ _ rfl⟩

end InfuraLambda
